import Mathlib

/- Shallow embedding of the estimation core of mre.py: the lag-coefficient
   estimator correlation_coefficients and the multi-start fitter
   correlation_fit.  Machine floats are modelled as rationals.  External
   numerical routines that the source calls (scipy.stats.linregress,
   scipy.optimize.curve_fit, numpy sqrt and exp) are modelled as function
   parameters; every piece of data-model and control flow is translated from
   the source. -/

/-- Result triple of scipy.stats.linregress as the source uses it:
slope, intercept and standard error. -/
structure LinReg where
  slope : ℚ
  intercept : ℚ
  stderr : ℚ
  deriving DecidableEq

/-- np.mean of a one-dimensional array: sum divided by length. -/
def npMean (l : List ℚ) : ℚ := l.sum / l.length

/-- np.arange(a, b): the integers a, a+1, ..., b-1 (empty when b is at most a). -/
def arange (a b : ℤ) : List ℤ :=
  (List.range (b - a).toNat).map (fun i : ℕ => a + (i : ℤ))

/-- Python slice trial[0:-s] (for s greater than 0 this is the first
length - s elements; for s = 0 it is empty; for negative s it is
trial[0:-s] = the first -s elements). -/
def pySliceToNeg (l : List ℚ) (s : ℤ) : List ℚ :=
  if 0 < s then l.take (l.length - s.toNat)
  else if s = 0 then []
  else l.take (-s).toNat

/-- Python slice trial[s:] (drop the first s elements; a negative s keeps
the last -s elements). -/
def pySliceFrom (l : List ℚ) (s : ℤ) : List ℚ :=
  if 0 ≤ s then l.drop s.toNat
  else l.drop (l.length - (-s).toNat)

/-- np.mean(m, axis=0) of a matrix with ncols columns: the column means. -/
def colMean (m : List (List ℚ)) (ncols : ℕ) : List ℚ :=
  (List.range ncols).map (fun j => (m.map (fun row => row.getD j 0)).sum / m.length)

/-- np.var(m, axis=0, ddof=1): per-column sample variance with Bessel
correction. -/
def colVar (m : List (List ℚ)) (ncols : ℕ) : List ℚ :=
  (List.range ncols).map (fun j =>
    let col := m.map (fun row => row.getD j 0)
    let mu := col.sum / col.length
    (col.map (fun v => (v - mu) ^ 2)).sum / ((col.length : ℚ) - 1))

/-- The sepres record of correlation_coefficients: the per-trial
(trials x steps) matrices.  In the source this is a CoefficientResult
namedtuple whose samples field is None; here it gets its own type. -/
structure CoefficientSamples where
  coefficients : List (List ℚ)
  steps : List ℤ
  offsets : List (List ℚ)
  stderrs : List (List ℚ)
  trialactivies : List ℚ
  deriving DecidableEq

/-- The CoefficientResult namedtuple returned by correlation_coefficients
(field name trialactivies is spelled as in the source). -/
structure CoefficientResult where
  coefficients : List ℚ
  steps : List ℤ
  offsets : List ℚ
  stderrs : List ℚ
  trialactivies : List ℚ
  samples : CoefficientSamples
  deriving DecidableEq

/-- correlation_coefficients from mre.py, for a two-dimensional input
(rows = trials).  lr models scipy.stats.linregress, sq models np.sqrt.
The unknown-method path leaves the result variable unbound in the source
(UnboundLocalError at the return); it is modelled as none.  The bootstrap
argument of the source is accepted and, as in the source, never used. -/
def correlation_coefficients (lr : List ℚ → List ℚ → LinReg) (sq : ℚ → ℚ)
    (data : List (List ℚ)) (minstep maxstep : ℤ) (method : String)
    (bootstrap : Bool := true) : Option CoefficientResult :=
  let minstep := if minstep > maxstep then 1 else minstep
  let datalength : ℤ := ((data.headD []).length : ℤ)
  let maxstep := if maxstep > datalength then datalength - 2 else maxstep
  let steps := arange minstep (maxstep + 1)
  let numsteps := steps.length
  let numtrials := data.length
  let trialactivies := data.map npMean
  let _ := bootstrap
  if method = "trialseparated" then
    let lrres := data.map (fun trial =>
      steps.map (fun s => lr (pySliceToNeg trial s) (pySliceFrom trial s)))
    let sep : CoefficientSamples :=
      { coefficients := lrres.map (fun row => row.map LinReg.slope)
        offsets := lrres.map (fun row => row.map LinReg.intercept)
        stderrs := lrres.map (fun row => row.map LinReg.stderr)
        steps := steps
        trialactivies := trialactivies }
    let stderrs :=
      if numtrials = 1 then sep.stderrs.headD []
      else (colVar sep.coefficients numsteps).map sq
    some
      { coefficients := colMean sep.coefficients numsteps
        steps := steps
        offsets := colMean sep.offsets numsteps
        stderrs := stderrs
        trialactivies := trialactivies
        samples := sep }
  else if method = "stationarymean" then
    let sep : CoefficientSamples :=
      { coefficients := data.map (fun _ => List.replicate numsteps 0)
        offsets := data.map (fun _ => List.replicate numsteps 0)
        stderrs := data.map (fun _ => List.replicate numsteps 0)
        steps := steps
        trialactivies := trialactivies }
    let pooled := steps.map (fun s =>
      let x := (data.map (fun trial =>
        (pySliceToNeg trial s).map (fun v => v - npMean trial))).flatten
      let y := (data.map (fun trial =>
        (pySliceFrom trial s).map (fun v => v - npMean trial))).flatten
      lr x y)
    some
      { coefficients := pooled.map LinReg.slope
        steps := steps
        offsets := pooled.map LinReg.intercept
        stderrs := pooled.map LinReg.stderr
        trialactivies := trialactivies
        samples := sep }
  else
    none

/-- A trivial stand-in regression used only to evaluate the embedding at
concrete inputs. -/
def lr0 : List ℚ → List ℚ → LinReg := fun _ _ => ⟨0, 0, 0⟩

/-- A regression stand-in with nonzero outputs, used to make the
trial-separated and stationary-mean sample matrices distinguishable. -/
def lr1 : List ℚ → List ℚ → LinReg := fun _ _ => ⟨1, 1, 1⟩

/-- Identity stand-in for np.sqrt (its value never matters to the claims). -/
def sqrt0 : ℚ → ℚ := fun q => q

-- ------------------------------------------------------------------ --
-- helper lemmas
-- ------------------------------------------------------------------ --

theorem mem_arange_lt {a b s : ℤ} (hs : s ∈ arange a b) : s < b := by
  unfold arange at hs
  obtain ⟨i, hi, heq⟩ := List.mem_map.mp hs
  have hi2 := Int.lt_toNat.mp (List.mem_range.mp hi)
  omega

theorem colMean_length (m : List (List ℚ)) (ncols : ℕ) :
    (colMean m ncols).length = ncols := by
  simp [colMean]

theorem colVar_length (m : List (List ℚ)) (ncols : ℕ) :
    (colVar m ncols).length = ncols := by
  simp [colVar]

theorem colMean_getD (m : List (List ℚ)) (ncols k : ℕ) (hk : k < ncols) :
    (colMean m ncols).getD k 0 =
      (m.map (fun row => row.getD k 0)).sum / (m.length : ℚ) := by
  unfold colMean
  rw [List.getD_eq_getElem _ _ (by simpa using hk), List.getElem_map,
    List.getElem_range]

-- ------------------------------------------------------------------ --
-- claims about correlation_coefficients
-- ------------------------------------------------------------------ --

/-- C10: for every call to correlation_coefficients with a method string
other than trialseparated or stationarymean, the function never returns a
CoefficientResult: the source reaches the return with the result variable
unbound (modelled as none), with no fallback to a default method. -/
theorem claim10_unknown_method (lr : List ℚ → List ℚ → LinReg) (sq : ℚ → ℚ)
    (data : List (List ℚ)) (minstep maxstep : ℤ) (method : String)
    (h1 : method ≠ "trialseparated") (h2 : method ≠ "stationarymean") :
    correlation_coefficients lr sq data minstep maxstep method = none := by
  unfold correlation_coefficients
  rw [if_neg h1, if_neg h2]

/-- Witness for C10 at the concrete method string "foo". -/
theorem claim10_witness :
    ("foo" ≠ "trialseparated") ∧ ("foo" ≠ "stationarymean") ∧
    correlation_coefficients lr0 sqrt0 [[0]] 1 1 "foo" = none :=
  ⟨by decide, by decide,
    claim10_unknown_method lr0 sqrt0 [[0]] 1 1 "foo" (by decide) (by decide)⟩

/-- C3 counterexample: with one trial of 5 data points (datalength = 5) and
requested maxstep = 4, the source's clamp condition (maxstep greater than
datalength, mre.py line 383) does not fire, so the effective maxstep stays 4,
strictly larger than datalength - 2 = 3: the steps go up to 4. -/
theorem claim3_counterexample :
    (correlation_coefficients lr0 sqrt0 [[0, 0, 0, 0, 0]] 1 4
        "trialseparated").map CoefficientResult.steps = some [1, 2, 3, 4] ∧
    ¬ ((4 : ℤ) ≤ ((([[0, 0, 0, 0, 0]] : List (List ℚ)).headD []).length : ℤ) - 2) :=
  ⟨by decide, by decide⟩

/-- C3 (amended): the clamp fires only when the requested maxstep strictly
exceeds datalength (not datalength - 2); in that case the effective maxstep
becomes datalength - 2 and every produced step is at most datalength - 2. -/
theorem claim3_amended (lr : List ℚ → List ℚ → LinReg) (sq : ℚ → ℚ)
    (data : List (List ℚ)) (minstep maxstep : ℤ) (method : String)
    (r : CoefficientResult)
    (hbig : maxstep > (((data.headD []).length : ℤ)))
    (h : correlation_coefficients lr sq data minstep maxstep method = some r) :
    ∀ s ∈ r.steps, s ≤ (((data.headD []).length : ℤ)) - 2 := by
  simp only [correlation_coefficients, if_pos hbig] at h
  intro s hs
  split at h
  · rw [Option.some.injEq] at h
    subst h
    have := mem_arange_lt hs
    omega
  · split at h
    · rw [Option.some.injEq] at h
      subst h
      have := mem_arange_lt hs
      omega
    · exact absurd h (by simp)

/-- Witness record for the C3 amendment: the result of the clamped call with
one trial of 3 points and requested maxstep 10 (steps clamp to [1]). -/
def w3res : CoefficientResult :=
  { coefficients := [0], steps := [1], offsets := [0], stderrs := [0],
    trialactivies := [0],
    samples := { coefficients := [[0]], steps := [1], offsets := [[0]],
                 stderrs := [[0]], trialactivies := [0] } }

/-- Witness for the C3 amendment: datalength 3, requested maxstep 10; the
clamp fires and every returned step is at most 1 = datalength - 2. -/
theorem claim3_witness :
    ((10 : ℤ) > ((([[0, 0, 0]] : List (List ℚ)).headD []).length : ℤ)) ∧
    correlation_coefficients lr0 sqrt0 [[0, 0, 0]] 1 10 "trialseparated" =
      some w3res ∧
    ∀ s ∈ w3res.steps,
      s ≤ ((([[0, 0, 0]] : List (List ℚ)).headD []).length : ℤ) - 2 := by
  have h : correlation_coefficients lr0 sqrt0 [[0, 0, 0]] 1 10
      "trialseparated" = some w3res := by
    norm_num [correlation_coefficients, w3res, colMean, colVar, npMean, arange,
      pySliceToNeg, pySliceFrom, lr0, sqrt0, List.range_succ]
  exact ⟨by decide, h,
    claim3_amended lr0 sqrt0 [[0, 0, 0]] 1 10 "trialseparated" w3res
      (by decide) h⟩

/-- C9 counterexample: one trial of 10 points, minstep = 9, maxstep = 20.
The minstep check (mre.py line 379) runs before the maxstep clamp (line 383)
and compares against the requested maxstep 20, so minstep is not reset even
though it exceeds the clamped maxstep 8; the result has empty steps, and the
call differs from the same call with minstep = 1. -/
theorem claim9_counterexample :
    ((correlation_coefficients lr0 sqrt0 [[0, 0, 0, 0, 0, 0, 0, 0, 0, 0]] 9 20
        "trialseparated").map CoefficientResult.steps = some []) ∧
    ((correlation_coefficients lr0 sqrt0 [[0, 0, 0, 0, 0, 0, 0, 0, 0, 0]] 1 20
        "trialseparated").map CoefficientResult.steps =
      some [1, 2, 3, 4, 5, 6, 7, 8]) ∧
    correlation_coefficients lr0 sqrt0 [[0, 0, 0, 0, 0, 0, 0, 0, 0, 0]] 9 20
        "trialseparated" ≠
      correlation_coefficients lr0 sqrt0 [[0, 0, 0, 0, 0, 0, 0, 0, 0, 0]] 1 20
        "trialseparated" := by
  have h1 : (correlation_coefficients lr0 sqrt0 [[0, 0, 0, 0, 0, 0, 0, 0, 0, 0]]
      9 20 "trialseparated").map CoefficientResult.steps = some [] := by decide
  have h2 : (correlation_coefficients lr0 sqrt0 [[0, 0, 0, 0, 0, 0, 0, 0, 0, 0]]
      1 20 "trialseparated").map CoefficientResult.steps =
      some [1, 2, 3, 4, 5, 6, 7, 8] := by decide
  refine ⟨h1, h2, fun heq => ?_⟩
  rw [heq, h2] at h1
  exact absurd h1 (by decide)

/-- C9 (amended): the reset happens only when minstep exceeds the requested
(pre-clamp) maxstep; in that case the call behaves exactly as if minstep
were 1, and with a recognized method it still returns a CoefficientResult. -/
theorem claim9_amended (lr : List ℚ → List ℚ → LinReg) (sq : ℚ → ℚ)
    (data : List (List ℚ)) (minstep maxstep : ℤ) (method : String)
    (h : minstep > maxstep) :
    correlation_coefficients lr sq data minstep maxstep method =
      correlation_coefficients lr sq data 1 maxstep method ∧
    (method = "trialseparated" ∨ method = "stationarymean" →
      (correlation_coefficients lr sq data minstep maxstep method).isSome =
        true) := by
  constructor
  · unfold correlation_coefficients
    rw [if_pos h, ite_self]
  · intro hm
    unfold correlation_coefficients
    rcases hm with rfl | rfl
    · simp
    · simp

/-- Witness for the C9 amendment at minstep = 5, maxstep = 3. -/
theorem claim9_witness :
    ((5 : ℤ) > 3) ∧
    (correlation_coefficients lr0 sqrt0 [[0, 0, 0, 0, 0]] 5 3 "trialseparated" =
      correlation_coefficients lr0 sqrt0 [[0, 0, 0, 0, 0]] 1 3
        "trialseparated") ∧
    (correlation_coefficients lr0 sqrt0 [[0, 0, 0, 0, 0]] 5 3
        "trialseparated").isSome = true := by
  have h := claim9_amended lr0 sqrt0 [[0, 0, 0, 0, 0]] 5 3 "trialseparated"
    (by decide)
  exact ⟨by decide, h.1, h.2 (Or.inl rfl)⟩

/-- C2: with the trial-separated method, each top-level coefficient equals
the arithmetic mean over trials of the matching column of
samples.coefficients, and each top-level offset likewise equals the mean
over trials of the matching column of samples.offsets. -/
theorem claim2_trialseparated_mean (lr : List ℚ → List ℚ → LinReg) (sq : ℚ → ℚ)
    (data : List (List ℚ)) (minstep maxstep : ℤ) (r : CoefficientResult)
    (k : ℕ)
    (h : correlation_coefficients lr sq data minstep maxstep "trialseparated" =
      some r)
    (hk : k < r.steps.length) :
    r.coefficients.getD k 0 =
      (r.samples.coefficients.map (fun row => row.getD k 0)).sum /
        (r.samples.coefficients.length : ℚ) ∧
    r.offsets.getD k 0 =
      (r.samples.offsets.map (fun row => row.getD k 0)).sum /
        (r.samples.offsets.length : ℚ) := by
  simp only [correlation_coefficients] at h
  split at h
  · rw [Option.some.injEq] at h
    subst h
    dsimp only at hk ⊢
    exact ⟨colMean_getD _ _ k hk, colMean_getD _ _ k hk⟩
  · simp at h

/-- Witness record for C2: two zero trials of 3 points, steps [1, 2]. -/
def w2res : CoefficientResult :=
  { coefficients := [0, 0], steps := [1, 2], offsets := [0, 0],
    stderrs := [0, 0], trialactivies := [0, 0],
    samples := { coefficients := [[0, 0], [0, 0]], steps := [1, 2],
                 offsets := [[0, 0], [0, 0]], stderrs := [[0, 0], [0, 0]],
                 trialactivies := [0, 0] } }

/-- Witness for C2 at two concrete trials and column k = 0. -/
theorem claim2_witness :
    (correlation_coefficients lr0 sqrt0 [[0, 0, 0], [0, 0, 0]] 1 2
        "trialseparated" = some w2res) ∧
    0 < w2res.steps.length ∧
    (w2res.coefficients.getD 0 0 =
        (w2res.samples.coefficients.map (fun row => row.getD 0 0)).sum /
          (w2res.samples.coefficients.length : ℚ) ∧
      w2res.offsets.getD 0 0 =
        (w2res.samples.offsets.map (fun row => row.getD 0 0)).sum /
          (w2res.samples.offsets.length : ℚ)) := by
  have h : correlation_coefficients lr0 sqrt0 [[0, 0, 0], [0, 0, 0]] 1 2
      "trialseparated" = some w2res := by
    norm_num [correlation_coefficients, w2res, colMean, colVar, npMean, arange,
      pySliceToNeg, pySliceFrom, lr0, sqrt0, List.range_succ, Int.toNat,
      Function.comp, List.getD]
  exact ⟨h, by decide,
    claim2_trialseparated_mean lr0 sqrt0 [[0, 0, 0], [0, 0, 0]] 1 2 w2res 0 h
      (by decide)⟩

/-- C6 (code bug): with the stationary-mean method the returned samples field
is the zero-initialised sepres of mre.py line 396; the per-trial regression
loop that would fill it runs only in the trialseparated branch, so samples
holds all-zero matrices rather than the trial-separated computation that the
claim (and the docstring of the samples field) describes, while the top-level
coefficients do come from the pooled regression.  Evaluated at two linear
trials with a regression stand-in returning slope 1: the trial-separated
computation of samples.coefficients would be [[1,1,1],[1,1,1]], but the
stationary-mean call returns [[0,0,0],[0,0,0]]. -/
theorem claim6_bug :
    ((correlation_coefficients lr1 sqrt0 [[0, 1, 2, 3], [1, 2, 3, 4]] 1 3
        "stationarymean").map (fun r => r.samples.coefficients) =
      some [[0, 0, 0], [0, 0, 0]]) ∧
    ((correlation_coefficients lr1 sqrt0 [[0, 1, 2, 3], [1, 2, 3, 4]] 1 3
        "trialseparated").map (fun r => r.samples.coefficients) =
      some [[1, 1, 1], [1, 1, 1]]) ∧
    ((correlation_coefficients lr1 sqrt0 [[0, 1, 2, 3], [1, 2, 3, 4]] 1 3
        "stationarymean").map (fun r => r.coefficients) = some [1, 1, 1]) := by
  refine ⟨?_, ?_, ?_⟩ <;>
    norm_num [correlation_coefficients, colMean, colVar, npMean, arange,
      pySliceToNeg, pySliceFrom, lr1, sqrt0, List.range_succ, Int.toNat,
      Function.comp, List.getD, List.replicate_succ,
      (by decide : ¬("stationarymean" = "trialseparated"))]

/-- C8 counterexample: two trials, three steps.  The nested samples result
has len(coefficients) = number of trials = 2 (its coefficients field is the
trials-by-steps matrix) but len(steps) = 3, so the claimed equality
len(coefficients) == len(steps) fails for the nested CoefficientResult. -/
theorem claim8_counterexample :
    (correlation_coefficients lr0 sqrt0 [[0, 0, 0, 0, 0], [0, 0, 0, 0, 0]] 1 3
        "trialseparated").map
      (fun r => (r.samples.coefficients.length, r.samples.steps.length)) =
      some (2, 3) ∧ (2 : ℕ) ≠ 3 :=
  ⟨by decide, by decide⟩

/-- C8 (amended): every top-level CoefficientResult satisfies the length
equalities len(coefficients) = len(offsets) = len(stderrs) = len(steps);
the nested samples result instead stores trials-by-steps matrices, so its
coefficients, offsets and stderrs have one entry per trial (length =
number of trials), with every row of length len(steps). -/
theorem claim8_amended (lr : List ℚ → List ℚ → LinReg) (sq : ℚ → ℚ)
    (data : List (List ℚ)) (minstep maxstep : ℤ) (method : String)
    (r : CoefficientResult)
    (h : correlation_coefficients lr sq data minstep maxstep method = some r) :
    (r.coefficients.length = r.steps.length ∧
     r.offsets.length = r.steps.length ∧
     r.stderrs.length = r.steps.length) ∧
    (r.samples.coefficients.length = data.length ∧
     r.samples.offsets.length = data.length ∧
     r.samples.stderrs.length = data.length ∧
     r.samples.steps = r.steps ∧
     (∀ row ∈ r.samples.coefficients, row.length = r.steps.length) ∧
     (∀ row ∈ r.samples.offsets, row.length = r.steps.length) ∧
     (∀ row ∈ r.samples.stderrs, row.length = r.steps.length)) := by
  simp only [correlation_coefficients] at h
  split at h
  · rw [Option.some.injEq] at h
    subst h
    dsimp only
    refine ⟨⟨colMean_length _ _, colMean_length _ _, ?_⟩,
      by simp, by simp, by simp, rfl, ?_, ?_, ?_⟩
    · split
      · next h1 =>
        obtain ⟨t, rfl⟩ := List.length_eq_one.mp (by simpa using h1)
        simp
      · simp [colVar_length]
    · intro row hrow
      simp only [List.map_map, List.mem_map] at hrow
      obtain ⟨trial, _, rfl⟩ := hrow
      simp [Function.comp]
    · intro row hrow
      simp only [List.map_map, List.mem_map] at hrow
      obtain ⟨trial, _, rfl⟩ := hrow
      simp [Function.comp]
    · intro row hrow
      simp only [List.map_map, List.mem_map] at hrow
      obtain ⟨trial, _, rfl⟩ := hrow
      simp [Function.comp]
  · split at h
    · rw [Option.some.injEq] at h
      subst h
      dsimp only
      refine ⟨⟨by simp, by simp, by simp⟩,
        by simp, by simp, by simp, rfl, ?_, ?_, ?_⟩ <;>
      · intro row hrow
        simp only [List.mem_map] at hrow
        obtain ⟨trial, _, rfl⟩ := hrow
        simp
    · simp at h

/-- Witness record for the C8 amendment: stationary-mean result for two zero
trials of 3 points with steps [1, 2]. -/
def w8res : CoefficientResult :=
  { coefficients := [0, 0], steps := [1, 2], offsets := [0, 0],
    stderrs := [0, 0], trialactivies := [0, 0],
    samples := { coefficients := [[0, 0], [0, 0]], steps := [1, 2],
                 offsets := [[0, 0], [0, 0]], stderrs := [[0, 0], [0, 0]],
                 trialactivies := [0, 0] } }

/-- Witness for the C8 amendment at a concrete stationary-mean call. -/
theorem claim8_witness :
    (correlation_coefficients lr0 sqrt0 [[0, 0, 0], [0, 0, 0]] 1 2
        "stationarymean" = some w8res) ∧
    ((w8res.coefficients.length = w8res.steps.length ∧
      w8res.offsets.length = w8res.steps.length ∧
      w8res.stderrs.length = w8res.steps.length) ∧
     (w8res.samples.coefficients.length =
        ([[0, 0, 0], [0, 0, 0]] : List (List ℚ)).length ∧
      w8res.samples.offsets.length =
        ([[0, 0, 0], [0, 0, 0]] : List (List ℚ)).length ∧
      w8res.samples.stderrs.length =
        ([[0, 0, 0], [0, 0, 0]] : List (List ℚ)).length ∧
      w8res.samples.steps = w8res.steps ∧
      (∀ row ∈ w8res.samples.coefficients, row.length = w8res.steps.length) ∧
      (∀ row ∈ w8res.samples.offsets, row.length = w8res.steps.length) ∧
      (∀ row ∈ w8res.samples.stderrs, row.length = w8res.steps.length))) := by
  have h : correlation_coefficients lr0 sqrt0 [[0, 0, 0], [0, 0, 0]] 1 2
      "stationarymean" = some w8res := by
    norm_num [correlation_coefficients, w8res, colMean, colVar, npMean, arange,
      pySliceToNeg, pySliceFrom, lr0, sqrt0, List.range_succ, Int.toNat,
      Function.comp, List.getD, List.replicate_succ,
      (by decide : ¬("stationarymean" = "trialseparated"))]
  exact ⟨h, claim8_amended lr0 sqrt0 [[0, 0, 0], [0, 0, 0]] 1 2
    "stationarymean" w8res h⟩

-- ------------------------------------------------------------------ --
-- correlation_fit: data model and embedding
-- ------------------------------------------------------------------ --

/-- The input shapes correlation_fit accepts: a CoefficientResult, a 1-d
array, or a 2-d array. -/
inductive FitData where
  | coeff (c : CoefficientResult)
  | array1d (v : List ℚ)
  | array2d (m : List (List ℚ))

/-- The (steps, coefficients, stderrs) triple that the format-guessing stage
of correlation_fit binds before fitting. -/
structure ParsedFit where
  steps : List ℚ
  coefficients : List ℚ
  stderrs : List ℚ
  deriving DecidableEq

/-- np.ones(n) as a list of rationals. -/
def npOnes (n : ℕ) : List ℚ := List.replicate n 1

/-- np.arange(a, b) with entries cast to rationals, as used for the steps of
raw-coefficient input. -/
def arangeQ (a b : ℤ) : List ℚ := (arange a b).map (fun z => (z : ℚ))

/-- The format-guessing stage of correlation_fit (mre.py lines 593-635).
A CoefficientResult is taken apart directly.  A 1-d array v becomes
coefficients for steps 1..len(v) with unit standard errors.  A 2-d array is
first transposed when it has more rows than columns, then dispatched on its
row count: one row gives coefficients with steps np.arange(1, len) (the
source omits the +1 here), two rows give (steps, coefficients) with unit
standard errors.  With three or more rows the source prints that it assumes
(steps, coefficients, stderrs) but still sets stderrs to ones, and then
evaluates `data.shape > 3`, which in Python 3 raises TypeError (tuple
compared with int); the handler then calls the misspelled `.foramt`,
raising AttributeError.  So every call with three or more rows fails, which
is modelled as an error.  Zero rows leave steps and coefficients unbound
(NameError at the fit call), also an error. -/
def parseFitData : FitData → Except Unit ParsedFit
  | .coeff c =>
    .ok { steps := c.steps.map (fun z => (z : ℚ)), coefficients := c.coefficients,
          stderrs := c.stderrs }
  | .array1d v =>
    .ok { steps := arangeQ 1 ((v.length : ℤ) + 1), coefficients := v,
          stderrs := npOnes v.length }
  | .array2d m =>
    let m := if m.length > (m.headD []).length then m.transpose else m
    if m.length = 1 then
      let c := m.headD []
      .ok { steps := arangeQ 1 (c.length : ℤ), coefficients := c,
            stderrs := npOnes c.length }
    else if m.length = 2 then
      .ok { steps := m.getD 0 [], coefficients := m.getD 1 [],
            stderrs := npOnes (m.getD 1 []).length }
    else
      .error ()

/-- The CorrelationResult namedtuple returned by correlation_fit.  The
fitfunc field holds the docstring of the fit function in the source. -/
structure CorrelationResult where
  tau : ℚ
  mre : ℚ
  fitfunc : String
  popt : List ℚ
  pcov : List (List ℚ)
  ssres : ℚ
  deriving DecidableEq

/-- Residual sum of squares between the observed coefficients and the model
evaluated at the fitted parameters: sum over points of
(coefficients[i] - fitfunc(steps[i], popt))^2 (mre.py lines 682-683). -/
def ssresOf (f : ℚ → List ℚ → ℚ) (steps coefficients popt : List ℚ) : ℚ :=
  ((coefficients.zipWith (fun c s => c - f s popt) steps).map
    (fun r => r ^ 2)).sum

/-- The multi-start loop of correlation_fit (mre.py lines 655-687): for each
row of starting parameters run the solver, compute the residual sum of
squares, and keep the strictly better run; the accumulator starts at
np.inf, modelled as none.  cf models scipy.optimize.curve_fit applied to
(steps, coefficients, p0, sigma); the source does not catch its exceptions,
so an error from any row propagates out of the loop. -/
def fitLoop (cf : List ℚ → List ℚ → List ℚ → List ℚ →
      Except Unit (List ℚ × List (List ℚ)))
    (f : ℚ → List ℚ → ℚ) (steps coefficients stderrs : List ℚ) :
    List (List ℚ) → Option (ℚ × List ℚ × List (List ℚ)) →
      Except Unit (Option (ℚ × List ℚ × List (List ℚ)))
  | [], best => .ok best
  | pars :: rest, best =>
    match cf steps coefficients pars stderrs with
    | .error e => .error e
    | .ok (popt, pcov) =>
      let ssres := ssresOf f steps coefficients popt
      let bestNew :=
        match best with
        | none => some (ssres, popt, pcov)
        | some b => if ssres < b.1 then some (ssres, popt, pcov) else best
      fitLoop cf f steps coefficients stderrs rest bestNew

/-- correlation_fit from mre.py.  cf models scipy.optimize.curve_fit, e
models np.exp, f is the fit function and fdoc its docstring; fitpars is the
starting-parameter grid (the source's fitpars after the default lookup and
the reshape of a single row to a one-row matrix).  When the loop finishes
with no candidate (empty grid), the source hits an unbound fulpopt
(NameError), modelled as an error. -/
def correlation_fit (cf : List ℚ → List ℚ → List ℚ → List ℚ →
      Except Unit (List ℚ × List (List ℚ)))
    (e : ℚ → ℚ) (f : ℚ → List ℚ → ℚ) (fdoc : String)
    (data : FitData) (fitpars : List (List ℚ)) :
    Except Unit CorrelationResult :=
  match parseFitData data with
  | .error err => .error err
  | .ok p =>
    match fitLoop cf f p.steps p.coefficients p.stderrs fitpars none with
    | .error err => .error err
    | .ok none => .error ()
    | .ok (some (ssresmin, fulpopt, fulpcov)) =>
      let deltat : ℚ := 1
      .ok { tau := fulpopt.headD 0, mre := e (-deltat / fulpopt.headD 0),
            fitfunc := fdoc, popt := fulpopt, pcov := fulpcov,
            ssres := ssresmin }

-- ------------------------------------------------------------------ --
-- the best-of reduction of the multi-start loop, and its properties
-- ------------------------------------------------------------------ --

/-- The pure best-so-far reduction performed by the multi-start loop on the
(ssres, popt, pcov) outcomes of the rows: a strictly smaller residual
replaces the champion, so ties keep the earlier row. -/
def runBest {α : Type} : Option (ℚ × α) → List (ℚ × α) → Option (ℚ × α)
  | best, [] => best
  | best, x :: xs =>
    runBest
      (match best with
       | none => some x
       | some b => if x.1 < b.1 then some x else best) xs

theorem runBest_some_cons {α : Type} (b x : ℚ × α) (xs : List (ℚ × α)) :
    runBest (some b) (x :: xs) =
      runBest (if x.1 < b.1 then some x else some b) xs := rfl

/-- Characterisation of the reduction started at champion b: the final
champion is the first element of b :: l attaining the minimal first
component. -/
theorem runBest_spec {α : Type} (b : ℚ × α) (l : List (ℚ × α)) :
    ∃ r, runBest (some b) l = some r ∧
      (∀ x ∈ b :: l, r.1 ≤ x.1) ∧
      ∃ i, ∃ hi : i < (b :: l).length,
        (b :: l).get ⟨i, hi⟩ = r ∧
        ∀ x ∈ (b :: l).take i, r.1 < x.1 := by
  induction l generalizing b with
  | nil =>
    refine ⟨b, rfl, ?_, 0, by simp, rfl, by simp⟩
    intro x hx
    rw [List.mem_cons] at hx
    rcases hx with rfl | hx
    · exact le_refl _
    · simp at hx
  | cons x xs ih =>
    by_cases hx : x.1 < b.1
    · obtain ⟨r, hr, hle, i, hi, hget, hfirst⟩ := ih x
      refine ⟨r, ?_, ?_, i + 1, ?_, ?_, ?_⟩
      · rw [runBest_some_cons, if_pos hx]
        exact hr
      · intro y hy
        rw [List.mem_cons] at hy
        rcases hy with rfl | hy
        · exact le_of_lt (lt_of_le_of_lt (hle x (List.mem_cons_self x xs)) hx)
        · exact hle y hy
      · simpa using Nat.succ_lt_succ hi
      · rw [List.get_cons_succ]
        exact hget
      · rw [List.take_succ_cons]
        intro y hy
        rw [List.mem_cons] at hy
        rcases hy with rfl | hy
        · exact lt_of_le_of_lt (hle x (List.mem_cons_self x xs)) hx
        · exact hfirst y hy
    · obtain ⟨r, hr, hle, i, hi, hget, hfirst⟩ := ih b
      have hble : b.1 ≤ x.1 := le_of_not_lt hx
      have hrb : r.1 ≤ b.1 := hle b (List.mem_cons_self b xs)
      have hrun : runBest (some b) (x :: xs) = some r := by
        rw [runBest_some_cons, if_neg hx]
        exact hr
      have hley : ∀ y ∈ b :: x :: xs, r.1 ≤ y.1 := by
        intro y hy
        rw [List.mem_cons] at hy
        rcases hy with rfl | hy
        · exact hrb
        rw [List.mem_cons] at hy
        rcases hy with rfl | hy
        · exact le_trans hrb hble
        · exact hle y (List.mem_cons_of_mem b hy)
      cases i with
      | zero =>
        refine ⟨r, hrun, hley, 0, by simp, ?_, by simp⟩
        exact hget
      | succ j =>
        rw [List.length_cons, Nat.succ_lt_succ_iff] at hi
        refine ⟨r, hrun, hley, j + 2,
          by simpa using Nat.succ_lt_succ (Nat.succ_lt_succ hi), ?_, ?_⟩
        · rw [List.get_cons_succ, List.get_cons_succ]
          rw [List.get_cons_succ] at hget
          exact hget
        · rw [List.take_succ_cons, List.take_succ_cons]
          have hb : r.1 < b.1 := by
            apply hfirst
            rw [List.take_succ_cons]
            exact List.mem_cons_self b _
          intro y hy
          rw [List.mem_cons] at hy
          rcases hy with rfl | hy
          · exact hb
          rw [List.mem_cons] at hy
          rcases hy with rfl | hy
          · exact lt_of_lt_of_le hb hble
          · apply hfirst
            rw [List.take_succ_cons]
            exact List.mem_cons_of_mem b hy

/-- The (popt, pcov) outcome of the solver on one starting row, with a junk
default on failure (only referenced under the hypothesis that every row
succeeds). -/
def rowOutcome (cf : List ℚ → List ℚ → List ℚ → List ℚ →
      Except Unit (List ℚ × List (List ℚ)))
    (steps coefficients stderrs pars : List ℚ) : List ℚ × List (List ℚ) :=
  match cf steps coefficients pars stderrs with
  | .ok o => o
  | .error _ => ([], [])

/-- The residual sum of squares of the fit started from one row. -/
def rowSsres (cf : List ℚ → List ℚ → List ℚ → List ℚ →
      Except Unit (List ℚ × List (List ℚ)))
    (f : ℚ → List ℚ → ℚ) (steps coefficients stderrs pars : List ℚ) : ℚ :=
  ssresOf f steps coefficients
    (rowOutcome cf steps coefficients stderrs pars).1

/-- The (ssres, popt, pcov) triple one row contributes to the best-of
reduction. -/
def rowTriple (cf : List ℚ → List ℚ → List ℚ → List ℚ →
      Except Unit (List ℚ × List (List ℚ)))
    (f : ℚ → List ℚ → ℚ) (steps coefficients stderrs pars : List ℚ) :
    ℚ × List ℚ × List (List ℚ) :=
  (rowSsres cf f steps coefficients stderrs pars,
   rowOutcome cf steps coefficients stderrs pars)

/-- When every row succeeds, the loop is the pure best-of reduction over the
rows' triples. -/
theorem fitLoop_eq_runBest (cf : List ℚ → List ℚ → List ℚ → List ℚ →
      Except Unit (List ℚ × List (List ℚ)))
    (f : ℚ → List ℚ → ℚ) (steps coefficients stderrs : List ℚ)
    (rows : List (List ℚ)) (best : Option (ℚ × List ℚ × List (List ℚ)))
    (hok : ∀ q ∈ rows, ∃ o, cf steps coefficients q stderrs = .ok o) :
    fitLoop cf f steps coefficients stderrs rows best =
      .ok (runBest best
        (rows.map (rowTriple cf f steps coefficients stderrs))) := by
  induction rows generalizing best with
  | nil => rfl
  | cons q rest ih =>
    obtain ⟨o, ho⟩ := hok q (List.mem_cons_self q rest)
    obtain ⟨popt, pcov⟩ := o
    have htr : rowTriple cf f steps coefficients stderrs q =
        (ssresOf f steps coefficients popt, popt, pcov) := by
      simp [rowTriple, rowSsres, rowOutcome, ho]
    unfold fitLoop
    rw [ho]
    dsimp only
    rw [ih _ (fun q hq => hok q (List.mem_cons_of_mem _ hq))]
    rw [List.map_cons, htr]
    cases best with
    | none => rfl
    | some b => rfl

/-- A failing row is not caught: the loop propagates the first error. -/
theorem fitLoop_error (cf : List ℚ → List ℚ → List ℚ → List ℚ →
      Except Unit (List ℚ × List (List ℚ)))
    (f : ℚ → List ℚ → ℚ) (steps coefficients stderrs : List ℚ)
    (rows : List (List ℚ)) (best : Option (ℚ × List ℚ × List (List ℚ)))
    (hbad : ∃ q ∈ rows, cf steps coefficients q stderrs = .error ()) :
    fitLoop cf f steps coefficients stderrs rows best = .error () := by
  induction rows generalizing best with
  | nil => simp at hbad
  | cons q rest ih =>
    obtain ⟨q0, hq0, herr⟩ := hbad
    rw [List.mem_cons] at hq0
    rcases hq0 with rfl | hmem
    · unfold fitLoop
      rw [herr]
    · unfold fitLoop
      cases hcf : cf steps coefficients q stderrs with
      | error err =>
        cases err
        rfl
      | ok o =>
        obtain ⟨popt, pcov⟩ := o
        dsimp only
        exact ih _ ⟨q0, hmem, herr⟩


theorem runBest_none_cons {α : Type} (x : ℚ × α) (xs : List (ℚ × α)) :
    runBest none (x :: xs) = runBest (some x) xs := rfl

/-- C1: when every starting-parameter row of a nonempty grid succeeds,
correlation_fit returns the result whose ssres is the minimum over rows of
the residual sum of squares at that row's optimized parameters (no row does
better, and some row attains it), and popt and pcov come from the first row
attaining that minimum: every earlier row has a strictly larger residual,
so ties keep the first row seen. -/
theorem claim1_best_of (cf : List ℚ → List ℚ → List ℚ → List ℚ →
      Except Unit (List ℚ × List (List ℚ)))
    (e : ℚ → ℚ) (f : ℚ → List ℚ → ℚ) (fdoc : String)
    (data : FitData) (fitpars : List (List ℚ)) (p : ParsedFit)
    (hp : parseFitData data = .ok p)
    (hne : fitpars ≠ [])
    (hok : ∀ q ∈ fitpars, ∃ o, cf p.steps p.coefficients q p.stderrs = .ok o) :
    ∃ r, correlation_fit cf e f fdoc data fitpars = .ok r ∧
      (∀ q ∈ fitpars,
        r.ssres ≤ rowSsres cf f p.steps p.coefficients p.stderrs q) ∧
      ∃ i, ∃ hi : i < fitpars.length,
        r.ssres = rowSsres cf f p.steps p.coefficients p.stderrs
          (fitpars.get ⟨i, hi⟩) ∧
        r.popt = (rowOutcome cf p.steps p.coefficients p.stderrs
          (fitpars.get ⟨i, hi⟩)).1 ∧
        r.pcov = (rowOutcome cf p.steps p.coefficients p.stderrs
          (fitpars.get ⟨i, hi⟩)).2 ∧
        ∀ q ∈ fitpars.take i,
          r.ssres < rowSsres cf f p.steps p.coefficients p.stderrs q := by
  obtain ⟨q0, qs, rfl⟩ := List.exists_cons_of_ne_nil hne
  have hloop := fitLoop_eq_runBest cf f p.steps p.coefficients p.stderrs
    (q0 :: qs) none hok
  obtain ⟨best, hbest, hle, i, hi, hget, hfirst⟩ :=
    runBest_spec (rowTriple cf f p.steps p.coefficients p.stderrs q0)
      (qs.map (rowTriple cf f p.steps p.coefficients p.stderrs))
  obtain ⟨s, popt, pcov⟩ := best
  have hloop2 : fitLoop cf f p.steps p.coefficients p.stderrs (q0 :: qs)
      none = .ok (some (s, popt, pcov)) := by
    rw [hloop, List.map_cons, runBest_none_cons, hbest]
  have hfit : correlation_fit cf e f fdoc data (q0 :: qs) =
      .ok { tau := popt.headD 0, mre := e (-1 / popt.headD 0),
            fitfunc := fdoc, popt := popt, pcov := pcov, ssres := s } := by
    unfold correlation_fit
    rw [hp]
    dsimp only
    rw [hloop2]
  have hilt : i < (q0 :: qs).length := by simpa using hi
  have hget2 : ((q0 :: qs).map
      (rowTriple cf f p.steps p.coefficients p.stderrs)).get
        ⟨i, by simpa using hilt⟩ = (s, popt, pcov) := hget
  have hgetmap : ((q0 :: qs).map
      (rowTriple cf f p.steps p.coefficients p.stderrs)).get
        ⟨i, by simpa using hilt⟩ =
      rowTriple cf f p.steps p.coefficients p.stderrs
        ((q0 :: qs).get ⟨i, hilt⟩) := by
    rw [List.get_eq_getElem, List.get_eq_getElem, List.getElem_map]
  have hrow : rowTriple cf f p.steps p.coefficients p.stderrs
      ((q0 :: qs).get ⟨i, hilt⟩) = (s, popt, pcov) := by
    rw [← hgetmap, hget2]
  refine ⟨_, hfit, ?_, i, hilt, ?_, ?_, ?_, ?_⟩
  · intro q hq
    have hmem : rowTriple cf f p.steps p.coefficients p.stderrs q ∈
        (q0 :: qs).map (rowTriple cf f p.steps p.coefficients p.stderrs) :=
      List.mem_map_of_mem _ hq
    rw [← List.map_cons] at hle
    have := hle _ hmem
    simpa [rowTriple] using this
  · have := congrArg Prod.fst hrow
    simpa [rowTriple] using this.symm
  · have := congrArg (fun t => t.2.1) hrow
    simpa [rowTriple] using this.symm
  · have := congrArg (fun t => t.2.2) hrow
    simpa [rowTriple] using this.symm
  · intro q hq
    have hmem : rowTriple cf f p.steps p.coefficients p.stderrs q ∈
        ((q0 :: qs).map
          (rowTriple cf f p.steps p.coefficients p.stderrs)).take i := by
      rw [← List.map_take]
      exact List.mem_map_of_mem _ hq
    rw [← List.map_cons] at hfirst
    have := hfirst _ hmem
    simpa [rowTriple] using this

/-- A solver stand-in that succeeds on every row and returns the starting
parameters unchanged, used to evaluate the fitter at concrete inputs. -/
def cf0 : List ℚ → List ℚ → List ℚ → List ℚ →
    Except Unit (List ℚ × List (List ℚ)) :=
  fun _ _ p0 _ => .ok (p0, [])

/-- Identity stand-in for np.exp (its value never matters to the claims). -/
def e0 : ℚ → ℚ := fun q => q

/-- A fit-function stand-in: the constant given by the first parameter. -/
def f0 : ℚ → List ℚ → ℚ := fun _ ps => ps.headD 0

/-- The parse of the 1-d input [1, 2]: steps 1..2, unit standard errors. -/
def p12 : ParsedFit :=
  { steps := [1, 2], coefficients := [1, 2], stderrs := [1, 1] }

/-- Witness for C1: rows [0] and [3/2]; the residual sums are 5 and 1/2, so
the minimum 1/2 is attained at row index 1 and row 0 is strictly worse. -/
theorem claim1_witness :
    (parseFitData (FitData.array1d [1, 2]) = .ok p12) ∧
    (([[0], [3/2]] : List (List ℚ)) ≠ []) ∧
    (∀ q ∈ ([[0], [3/2]] : List (List ℚ)), ∃ o,
      cf0 p12.steps p12.coefficients q p12.stderrs = .ok o) ∧
    ∃ r, correlation_fit cf0 e0 f0 "A e^(-k/tau)" (FitData.array1d [1, 2])
        [[0], [3/2]] = .ok r ∧
      (∀ q ∈ ([[0], [3/2]] : List (List ℚ)),
        r.ssres ≤ rowSsres cf0 f0 p12.steps p12.coefficients p12.stderrs q) ∧
      ∃ i, ∃ hi : i < ([[0], [3/2]] : List (List ℚ)).length,
        r.ssres = rowSsres cf0 f0 p12.steps p12.coefficients p12.stderrs
          (([[0], [3/2]] : List (List ℚ)).get ⟨i, hi⟩) ∧
        r.popt = (rowOutcome cf0 p12.steps p12.coefficients p12.stderrs
          (([[0], [3/2]] : List (List ℚ)).get ⟨i, hi⟩)).1 ∧
        r.pcov = (rowOutcome cf0 p12.steps p12.coefficients p12.stderrs
          (([[0], [3/2]] : List (List ℚ)).get ⟨i, hi⟩)).2 ∧
        ∀ q ∈ ([[0], [3/2]] : List (List ℚ)).take i,
          r.ssres < rowSsres cf0 f0 p12.steps p12.coefficients p12.stderrs
            q := by
  have hp : parseFitData (FitData.array1d [1, 2]) = .ok p12 := by
    norm_num [parseFitData, p12, arangeQ, arange, npOnes, Int.toNat,
      List.range_succ, List.replicate_succ]
  have hne : ([[0], [3/2]] : List (List ℚ)) ≠ [] := by
    intro hcontra
    simp at hcontra
  have hok : ∀ q ∈ ([[0], [3/2]] : List (List ℚ)), ∃ o,
      cf0 p12.steps p12.coefficients q p12.stderrs = .ok o :=
    fun q _ => ⟨(q, []), rfl⟩
  exact ⟨hp, hne, hok, claim1_best_of cf0 e0 f0 "A e^(-k/tau)"
    (FitData.array1d [1, 2]) [[0], [3/2]] p12 hp hne hok⟩

/-- C5 (amended): the source has no exception handling around
scipy.optimize.curve_fit (mre.py lines 678-680), so a row whose optimization
raises aborts the whole multi-start fit: whenever any row of the grid fails,
correlation_fit fails, regardless of other rows succeeding. -/
theorem claim5_amended (cf : List ℚ → List ℚ → List ℚ → List ℚ →
      Except Unit (List ℚ × List (List ℚ)))
    (e : ℚ → ℚ) (f : ℚ → List ℚ → ℚ) (fdoc : String)
    (data : FitData) (fitpars : List (List ℚ)) (p : ParsedFit)
    (hp : parseFitData data = .ok p)
    (hbad : ∃ q ∈ fitpars,
      cf p.steps p.coefficients q p.stderrs = .error ()) :
    correlation_fit cf e f fdoc data fitpars = .error () := by
  unfold correlation_fit
  rw [hp]
  dsimp only
  rw [fitLoop_error cf f p.steps p.coefficients p.stderrs fitpars none hbad]

/-- A solver stand-in that fails on the starting row [1] and succeeds on
every other row. -/
def cfX : List ℚ → List ℚ → List ℚ → List ℚ →
    Except Unit (List ℚ × List (List ℚ)) :=
  fun _ _ p0 _ => if p0 = [1] then .error () else .ok (p0, [])

/-- C5 counterexample: with rows [1] (failing) and [2] (succeeding), the fit
returns no result at all, although the same call with only the succeeding
row returns one; the failing row aborts the whole multi-start fit instead of
merely contributing no candidate. -/
theorem claim5_counterexample :
    ((correlation_fit cfX e0 f0 "" (FitData.array1d [1])
        [[1], [2]]).toOption = none) ∧
    ((correlation_fit cfX e0 f0 "" (FitData.array1d [1]) [[2]]).toOption =
      some { tau := 2, mre := -1/2, fitfunc := "", popt := [2], pcov := [],
             ssres := 1 }) := by
  constructor
  · norm_num [correlation_fit, parseFitData, fitLoop, ssresOf, cfX, e0, f0,
      arangeQ, arange, npOnes, Int.toNat, List.range_succ,
      List.replicate_succ, Except.toOption]
  · norm_num [correlation_fit, parseFitData, fitLoop, ssresOf, cfX, e0, f0,
      arangeQ, arange, npOnes, Int.toNat, List.range_succ,
      List.replicate_succ, Except.toOption]

/-- The parse of the 1-d input [1]: one step, unit standard error. -/
def p1 : ParsedFit := { steps := [1], coefficients := [1], stderrs := [1] }

/-- Witness for the C5 amendment: the failing row [1] makes the whole fit
fail. -/
theorem claim5_witness :
    (parseFitData (FitData.array1d [1]) = .ok p1) ∧
    (∃ q ∈ ([[1], [2]] : List (List ℚ)),
      cfX p1.steps p1.coefficients q p1.stderrs = .error ()) ∧
    correlation_fit cfX e0 f0 "" (FitData.array1d [1]) [[1], [2]] =
      .error () := by
  have hp : parseFitData (FitData.array1d [1]) = .ok p1 := by
    norm_num [parseFitData, p1, arangeQ, arange, npOnes, Int.toNat,
      List.range_succ, List.replicate_succ]
  have hbad : ∃ q ∈ ([[1], [2]] : List (List ℚ)),
      cfX p1.steps p1.coefficients q p1.stderrs = .error () := by
    refine ⟨[1], List.mem_cons_self _ _, ?_⟩
    unfold cfX
    rw [if_pos rfl]
  exact ⟨hp, hbad, claim5_amended cfX e0 f0 "" (FitData.array1d [1])
    [[1], [2]] p1 hp hbad⟩

/-- C7: every CorrelationResult that correlation_fit returns has tau equal
to the first entry of the winning parameter vector popt, and mre equal to
exp(-deltat/tau) with the time step deltat fixed at 1, i.e. exp(-1/tau)
exactly (exp is the np.exp model passed as e). -/
theorem claim7_tau_mre (cf : List ℚ → List ℚ → List ℚ → List ℚ →
      Except Unit (List ℚ × List (List ℚ)))
    (e : ℚ → ℚ) (f : ℚ → List ℚ → ℚ) (fdoc : String)
    (data : FitData) (fitpars : List (List ℚ)) (r : CorrelationResult)
    (h : correlation_fit cf e f fdoc data fitpars = .ok r) :
    r.tau = r.popt.headD 0 ∧ r.mre = e (-1 / r.tau) := by
  unfold correlation_fit at h
  split at h
  · simp at h
  · split at h
    · simp at h
    · simp at h
    · rw [Except.ok.injEq] at h
      subst h
      exact ⟨rfl, rfl⟩

/-- Witness record for C7: the fit of the 1-d input [1] from the single
starting row [4] under the identity solver stand-in. -/
def w7res : CorrelationResult :=
  { tau := 4, mre := -1/4, fitfunc := "", popt := [4], pcov := [],
    ssres := 9 }

/-- Witness for C7 at a concrete fit. -/
theorem claim7_witness :
    (correlation_fit cf0 e0 f0 "" (FitData.array1d [1]) [[4]] =
      .ok w7res) ∧
    w7res.tau = w7res.popt.headD 0 ∧ w7res.mre = e0 (-1 / w7res.tau) := by
  have h : correlation_fit cf0 e0 f0 "" (FitData.array1d [1]) [[4]] =
      .ok w7res := by
    norm_num [correlation_fit, parseFitData, fitLoop, ssresOf, cf0, e0, f0,
      arangeQ, arange, npOnes, Int.toNat, List.range_succ,
      List.replicate_succ, w7res]
  exact ⟨h, claim7_tau_mre cf0 e0 f0 "" (FitData.array1d [1]) [[4]] w7res h⟩

/-- C4 (code bug): for a 2-d input with three or more rows the source prints
that it treats the rows as (steps, coefficients, stderrs), but line 631
assigns stderrs = np.ones rather than the third row, and the branch then
evaluates `data.shape > 3` (mre.py line 633), which in Python 3 raises
TypeError because a tuple cannot be compared with an int; the except handler
calls the misspelled `.foramt` (line 635) and raises AttributeError.  So the
third row is never used as the per-point standard errors: the call fails
instead.  Evaluated at a concrete 3-row array. -/
theorem claim4_bug :
    parseFitData (FitData.array2d
      [[1, 2, 3, 4], [1/2, 2/5, 3/10, 1/5], [1/10, 1/10, 1/10, 1/10]]) =
      .error () ∧
    correlation_fit cf0 e0 f0 "" (FitData.array2d
      [[1, 2, 3, 4], [1/2, 2/5, 3/10, 1/5], [1/10, 1/10, 1/10, 1/10]])
      [[4]] = .error () :=
  ⟨rfl, rfl⟩
